import Mathlib

/-!
Shallow embedding of the `clilib` CLI support library (src/src/lib.rs):
the `CliError` error-reporting lifecycle and the `Arguments` command-line
tokenizer, together with theorems settling the specification claims.

Strings are modelled by Lean `String`; Rust's `str::starts_with` is
modelled by a prefix test on the character list, and Rust's `str::len`
(UTF-8 byte count) by an explicit byte-size function.  Rust's
`HashMap<String, Vec<String>>` is modelled extensionally as a function
`String → Option (List String)`; `insert` overwrites the entry at a key,
exactly as `HashMap::insert` does.  Writes to the process error stream are
modelled as the list of lines a call emits.
-/

namespace Clilib

/-- Levels of severity for a `CliError` (Rust enum `ErrorLevel`). -/
inductive ErrorLevel where
  /-- Fatal error: the application cannot continue. -/
  | Error : ErrorLevel
  /-- Warning: execution can continue. -/
  | Warning : ErrorLevel
deriving DecidableEq

/-- Error for a CLI application (Rust struct `CliError`). -/
structure CliError where
  /-- Error message. -/
  error : String
  /-- Error code. -/
  error_code : Int
  /-- Error level. -/
  error_level : ErrorLevel
  /-- Has the error been reported to the user yet? -/
  reported : Bool
deriving DecidableEq

/-- Rust `CliError::new`: construct with `reported = false`. -/
def CliError.new (msg : String) (error_code : Int) (error_level : ErrorLevel) : CliError :=
  { error := msg, error_code := error_code, error_level := error_level, reported := false }

/-- Rust `CliError::warn`: a fresh Warning-level error wrapped as a failure. -/
def CliError.warn (T : Type) (msg : String) (error_code : Int) : Except CliError T :=
  Except.error (CliError.new msg error_code ErrorLevel.Warning)

/-- Rust `CliError::error`: a fresh Error-level (fatal) error wrapped as a failure.
Named `fatal` here because the Lean field projection `CliError.error`
already takes the source name. -/
def CliError.fatal (T : Type) (msg : String) (error_code : Int) : Except CliError T :=
  Except.error (CliError.new msg error_code ErrorLevel.Error)

/-- The application name that `env!("CARGO_PKG_NAME")` bakes into the
report lines.  Modelled from the spec: the package manifest is not under
`src/`; the spec states the application name is bound at build time and is
external to this core.  Its concrete value is irrelevant to every claim. -/
def pkg_name : String := "clilib"

/-- The line `handle` writes for a fatal error. -/
def errorLine (msg : String) : String :=
  pkg_name ++ " has encountered an error: '" ++ msg ++ "'"

/-- The line `handle` writes for a warning. -/
def warningLine (msg : String) : String :=
  pkg_name ++ " has encountered a warning: '" ++ msg ++ "'"

/-- Rust `CliError::handle(&mut self) -> Result<(), CliError>`.
Returns the mutated instance, the lines written to the error stream by
this call, and the returned result.  For a fatal error the failure value
is `self.clone()` taken *after* `reported` is set, so it always carries
`reported = true`. -/
def CliError.handle (self : CliError) : CliError × List String × Except CliError Unit :=
  match self.error_level with
  | ErrorLevel.Error =>
      if self.reported then
        (self, [], Except.error self)
      else
        let reportedSelf := { self with reported := true }
        (reportedSelf, [errorLine self.error], Except.error reportedSelf)
  | ErrorLevel.Warning =>
      if self.reported then
        (self, [], Except.ok ())
      else
        (self, [warningLine self.error], Except.ok ())

/-- Rust `CliError::dismiss_by_code`: drop the error if its code matches. -/
def CliError.dismiss_by_code (self : CliError) (error_code : Int) : Except CliError Unit :=
  if self.error_code = error_code then Except.ok () else Except.error self

/-- Rust `CliError::dismiss_by_codes`: drop the error if its code is in the vector. -/
def CliError.dismiss_by_codes (self : CliError) (error_codes : List Int) : Except CliError Unit :=
  if error_codes.contains self.error_code then Except.ok () else Except.error self

/-- Rust `CliError::dismiss`: unconditionally drop the error. -/
def CliError.dismiss (_self : CliError) : Except CliError Unit :=
  Except.ok ()

/-- Character-list prefix test underlying `str::starts_with`. -/
def isPrefixList : List Char → List Char → Bool
  | [], _ => true
  | _ :: _, [] => false
  | p :: ps, c :: cs => p == c && isPrefixList ps cs

/-- Rust `arg.starts_with(pat)`. -/
def startsWith (s pat : String) : Bool :=
  isPrefixList pat.data s.data

/-- UTF-8 size in bytes of one character (as in Rust, where `String::len`
counts bytes). -/
def charUtf8Size (c : Char) : Nat :=
  if c.toNat < 0x80 then 1
  else if c.toNat < 0x800 then 2
  else if c.toNat < 0x10000 then 3
  else 4

/-- Rust `arg.len()`: the UTF-8 byte length of the string. -/
def utf8Len (s : String) : Nat :=
  s.data.foldl (fun n c => n + charUtf8Size c) 0

/-- The map `values: HashMap<String, Vec<String>>`, modelled extensionally. -/
def ValMap : Type := String → Option (List String)

/-- Rust `HashMap::insert`: overwrite the entry at `k` with `v`. -/
def insertV (m : ValMap) (k : String) (v : List String) : ValMap :=
  fun q => if q = k then some v else m q

/-- The local state threaded through the tokenizing loop of `Arguments::new`:
the `args` vector, the `values` map, the `naked_values` accumulator and the
`last_arg` cursor. -/
structure TokState where
  args : List String
  values : ValMap
  naked_values : List String
  last_arg : String

/-- The flush performed when an option token is met: if the accumulator is
non-empty, record it into `values` under the cursor and clear it. -/
def flush (s : TokState) : TokState :=
  if s.naked_values.length ≠ 0 then
    { s with values := insertV s.values s.last_arg s.naked_values, naked_values := [] }
  else s

/-- The body of the inner `for c in arg.chars()` loop of the bundled
short-option branch: every non-dash character synthesizes `-c`. -/
def charStep (s : TokState) (c : Char) : TokState :=
  if c ≠ '-' then
    let current_arg := "-".push c
    { s with args := s.args ++ [current_arg], last_arg := current_arg }
  else s

/-- The body of the main `for arg in &arg_str_array[1..]` loop of
`Arguments::new`. -/
def step (s : TokState) (arg : String) : TokState :=
  if startsWith arg "--" then
    let s := flush s
    { s with args := s.args ++ [arg], last_arg := arg }
  else if startsWith arg "-" then
    let s := flush s
    if utf8Len arg = 2 then
      { s with args := s.args ++ [arg], last_arg := arg }
    else
      arg.data.foldl charStep s
  else
    { s with naked_values := s.naked_values ++ [arg] }

/-- Command line arguments (Rust struct `Arguments`). -/
structure Arguments where
  /-- Defined arguments. -/
  args : List String
  /-- Argument values. -/
  values : ValMap
  /-- List of raw (naked) values. -/
  naked_values : List String

/-- The initial loop state: empty vectors, empty map, cursor `""`. -/
def initState : TokState :=
  { args := [], values := fun _ => none, naked_values := [], last_arg := "" }

/-- The tokenizing pass of `Arguments::new` over the arguments after the
program name.  The final flush uses `naked_values.clone()`, so the
`naked_values` field of the result keeps the trailing accumulator. -/
def build (input : List String) : Arguments :=
  let s := input.foldl step initState
  let values :=
    if s.naked_values.length ≠ 0 then insertV s.values s.last_arg s.naked_values
    else s.values
  { args := s.args, values := values, naked_values := s.naked_values }

/-- Rust `Arguments::new(raw_args)`: collects the raw arguments and iterates over
`&arg_str_array[1..]`.  On an empty vector the slice `[1..]` is out of
range and the Rust code panics, modelled as `none`. -/
def Arguments.new (raw_args : List String) : Option Arguments :=
  match raw_args with
  | [] => none
  | _ :: rest => some (build rest)

/-- Rust `Arguments::get_single`: first element of the value vector at `key`,
guarded by a length check. -/
def Arguments.get_single (self : Arguments) (key : String) : Option String :=
  match self.values key with
  | some s => if h : 0 < s.length then some (s.get ⟨0, h⟩) else none
  | none => none

/-- Rust `Arguments::check_arg`: membership in the `args` vector. -/
def Arguments.check_arg (self : Arguments) (arg : String) : Bool :=
  self.args.contains arg

/-- Rust `Arguments::get_passed::<T>`, with `T::from_str` modelled by an explicit
`parse` function. -/
def Arguments.get_passed {T : Type} (self : Arguments) (parse : String → Option T)
    (arg : String) : Option T :=
  if !self.check_arg arg then none
  else
    match self.get_single arg with
    | some s =>
        match parse s with
        | some v => some v
        | none => none
    | none => none

/-- Message of the `get_passed_checked` failure for an absent option. -/
def noOptionMsg (arg : String) : String :=
  "No '" ++ arg ++ "' option passed"

/-- Message of the `get_passed_checked` failure for an unparsable value. -/
def cannotParseMsg (arg : String) : String :=
  "Cannot parse argument to '" ++ arg ++ "'"

/-- Message of the `get_passed_checked` failure for an option with no value. -/
def noArgumentMsg (arg : String) : String :=
  "No argument passed to '" ++ arg ++ "'"

/-- Rust `Arguments::get_passed_checked::<T>`. -/
def Arguments.get_passed_checked {T : Type} (self : Arguments) (parse : String → Option T)
    (arg : String) : Except CliError T :=
  if !self.check_arg arg then CliError.fatal T (noOptionMsg arg) 1
  else
    match self.get_single arg with
    | some s =>
        match parse s with
        | some v => Except.ok v
        | none => CliError.fatal T (cannotParseMsg arg) 1
    | none => CliError.fatal T (noArgumentMsg arg) 1

/-- The trailing run of naked values of an input: the longest suffix of
elements not starting with `"-"`. -/
def trailingNaked (input : List String) : List String :=
  (input.reverse.takeWhile (fun a => !startsWith a "-")).reverse

/-- Decimal digit accumulation for `parseInt?`. -/
def parseNatAux : List Char → Nat → Option Nat
  | [], acc => some acc
  | c :: cs, acc =>
      if '0' ≤ c ∧ c ≤ '9' then parseNatAux cs (acc * 10 + (c.toNat - '0'.toNat))
      else none

/-- A concrete executable instantiation of the type parameter of
`get_passed::<T>` / `get_passed_checked::<T>`: `i64::from_str` on decimal
input (used to exercise the generic theorems on integers). -/
def parseInt? (s : String) : Option Int :=
  match s.data with
  | [] => none
  | '-' :: cs =>
      match cs with
      | [] => none
      | _ => (parseNatAux cs 0).map (fun n => -(n : Int))
  | cs => (parseNatAux cs 0).map (fun n => (n : Int))

/-! ## Helper lemmas about the tokenizing loop -/

/-- A string starting with `"--"` also starts with `"-"`. -/
lemma startsWith_dash_of_dashdash (a : String) (h : startsWith a "--" = true) :
    startsWith a "-" = true := by
  unfold startsWith at h ⊢
  match hd : a.data with
  | [] => rw [hd] at h; simp [isPrefixList] at h
  | c :: cs =>
    rw [hd] at h
    simp [isPrefixList] at h ⊢
    exact h.1

/-- A flush leaves an empty accumulator behind. -/
lemma flush_naked_values (s : TokState) : (flush s).naked_values = [] := by
  unfold flush
  split
  · rfl
  · next h => exact List.length_eq_zero.mp (not_ne_iff.mp h)

/-- A flush with an empty accumulator is the identity. -/
lemma flush_of_empty (s : TokState) (h : s.naked_values = []) : flush s = s := by
  simp [flush, h]

/-- A flush with a non-empty accumulator records it under the cursor. -/
lemma flush_of_ne (s : TokState) (h : s.naked_values ≠ []) :
    flush s =
      { s with values := insertV s.values s.last_arg s.naked_values, naked_values := [] } := by
  have : s.naked_values.length ≠ 0 := fun hc => h (List.length_eq_zero.mp hc)
  simp [flush, this]

/-- The processing of a naked value only appends it to the accumulator. -/
lemma step_naked (s : TokState) (a : String) (h : startsWith a "-" = false) :
    step s a = { s with naked_values := s.naked_values ++ [a] } := by
  have h2 : startsWith a "--" = false := by
    cases hc : startsWith a "--" with
    | false => rfl
    | true => rw [startsWith_dash_of_dashdash a hc] at h; cases h
  simp [step, h, h2]

/-- The processing of a long option (an element starting with `"--"`)
flushes the accumulator, appends the element verbatim to `args` and makes
it the cursor. -/
lemma step_long (s : TokState) (o : String) (h : startsWith o "--" = true) :
    step s o = { flush s with args := (flush s).args ++ [o], last_arg := o } := by
  simp [step, h]

/-- The inner bundled-short-option loop never touches the accumulator or
the values map. -/
lemma foldl_charStep_frozen (cs : List Char) (s : TokState) :
    (cs.foldl charStep s).naked_values = s.naked_values ∧
      (cs.foldl charStep s).values = s.values := by
  induction cs generalizing s with
  | nil => exact ⟨rfl, rfl⟩
  | cons c t ih =>
    rw [List.foldl_cons]
    refine ⟨?_, ?_⟩
    · rw [(ih (charStep s c)).1]; unfold charStep; split <;> rfl
    · rw [(ih (charStep s c)).2]; unfold charStep; split <;> rfl

/-- After processing any option element (starting with `"-"`), the
accumulator is empty. -/
lemma step_dash_naked_values (s : TokState) (a : String) (h : startsWith a "-" = true) :
    (step s a).naked_values = [] := by
  unfold step
  by_cases h2 : startsWith a "--" = true
  · simp [h2, flush_naked_values]
  · simp only [h2, h, Bool.false_ne_true, if_false, if_true]
    by_cases h3 : utf8Len a = 2
    · simp [h3, flush_naked_values]
    · simp [h3, (foldl_charStep_frozen a.data (flush s)).1, flush_naked_values]

/-- Folding the loop body over a run of naked values only appends the run
to the accumulator. -/
lemma foldl_step_naked (l : List String) (s : TokState)
    (h : ∀ a ∈ l, startsWith a "-" = false) :
    l.foldl step s = { s with naked_values := s.naked_values ++ l } := by
  induction l generalizing s with
  | nil => simp
  | cons a t ih =>
    rw [List.foldl_cons, step_naked s a (h a (by simp)),
      ih _ (fun x hx => h x (by simp [hx]))]
    simp

/-- At the end of the loop, the accumulator holds the trailing naked-value
run of the input (prefixed by the initial accumulator when the input has no
option token at all). -/
lemma foldl_step_naked_values (input : List String) (s : TokState) :
    (input.foldl step s).naked_values =
      (if input.all (fun a => !startsWith a "-") then s.naked_values else []) ++
        trailingNaked input := by
  induction input using List.reverseRecOn with
  | nil => simp [trailingNaked]
  | append_singleton xs a ih =>
    rw [List.foldl_append, List.foldl_cons, List.foldl_nil]
    cases hc : startsWith a "-" with
    | true =>
      rw [step_dash_naked_values _ a hc]
      simp [trailingNaked, List.all_append, hc, List.takeWhile_cons]
    | false =>
      rw [step_naked _ a hc]
      simp only [TokState.mk.injEq]
      show (xs.foldl step s).naked_values ++ [a] = _
      rw [ih]
      simp [trailingNaked, List.all_append, hc, List.takeWhile_cons, List.reverse_append]

/-! ## Claim theorems -/

/-- C1 counterexample: for the input `["--foo", "a", "b", "-x", "c"]` the
`naked_values` field of the built tokenizer is `["c"]`, not the
concatenation `["a", "b", "c"]` of all naked-value runs: every flush moves
the accumulator into the map and clears it, so only the trailing run
survives in the field. -/
theorem naked_values_concat_cex :
    (build ["--foo", "a", "b", "-x", "c"]).naked_values = ["c"] ∧
      ¬(build ["--foo", "a", "b", "-x", "c"]).naked_values = ["a", "b", "c"] := by
  constructor <;> decide

/-- C1 (amended): for every input, the `free_values` (`naked_values`) field
of the built tokenizer equals the trailing naked-value run — the naked
values after the last option token, or the whole input when no element
starts with `"-"` — not the concatenation of all runs. -/
theorem naked_values_eq_trailingNaked (input : List String) :
    (build input).naked_values = trailingNaked input := by
  have hb : (build input).naked_values = (input.foldl step initState).naked_values := rfl
  rw [hb, foldl_step_naked_values]
  have hi : initState.naked_values = [] := rfl
  split <;> simp [hi]

/-- C6: for every raw-argument sequence in which no element starts with
`"-"`, the built tokenizer has an empty `args` list, `naked_values` equal
to the input verbatim, and a values map whose only possible entry is keyed
by the empty string and holds the full input (no entry at all when the
input is empty). -/
theorem build_no_options (input : List String)
    (h : ∀ a ∈ input, startsWith a "-" = false) :
    (build input).args = [] ∧
      (build input).naked_values = input ∧
      (∀ k, k ≠ "" → (build input).values k = none) ∧
      (input ≠ [] → (build input).values "" = some input) ∧
      (input = [] → ∀ k, (build input).values k = none) := by
  have hs : input.foldl step initState =
      { args := [], values := fun _ => none, naked_values := input, last_arg := "" } := by
    rw [foldl_step_naked input initState h]
    simp [initState]
  have hb : build input =
      { args := [],
        values :=
          if input.length ≠ 0 then insertV (fun _ => none) "" input else fun _ => none,
        naked_values := input } := by
    unfold build
    rw [hs]
  rw [hb]
  refine ⟨rfl, rfl, ?_, ?_, ?_⟩
  · intro k hk
    dsimp only
    split
    · simp [insertV, hk]
    · rfl
  · intro hne
    have : input.length ≠ 0 := fun hc => hne (List.length_eq_zero.mp hc)
    simp [this, insertV]
  · intro hnil k
    subst hnil
    simp

/-- C6 witness at the concrete input `["a", "b"]`. -/
theorem build_no_options_witness :
    (build ["a", "b"]).args = [] ∧
      (build ["a", "b"]).naked_values = ["a", "b"] ∧
      (build ["a", "b"]).values "" = some ["a", "b"] ∧
      (build ["a", "b"]).values "-x" = none :=
  ⟨(build_no_options ["a", "b"] (by decide)).1,
    (build_no_options ["a", "b"] (by decide)).2.1,
    (build_no_options ["a", "b"] (by decide)).2.2.2.1 (by decide),
    (build_no_options ["a", "b"] (by decide)).2.2.1 "-x" (by decide)⟩

/-- C3: for the input `["--foo", "a", "b", "-x", "c"]` the built tokenizer
has `args = ["--foo", "-x"]` in that order, and its values map sends
`"--foo"` to `["a", "b"]` and `"-x"` to `["c"]`. -/
theorem build_example_run :
    (build ["--foo", "a", "b", "-x", "c"]).args = ["--foo", "-x"] ∧
      (build ["--foo", "a", "b", "-x", "c"]).values "--foo" = some ["a", "b"] ∧
      (build ["--foo", "a", "b", "-x", "c"]).values "-x" = some ["c"] := by
  refine ⟨by decide, by decide, by decide⟩

/-- C4: the bundled element `"-abc"` is split into the synthesized short
options `["-a", "-b", "-c"]`, and any non-empty run of naked values
immediately following the bundle is recorded under the last synthesized
token `"-c"` only (the earlier synthesized tokens get no entry). -/
theorem build_bundled_short :
    (build ["-abc"]).args = ["-a", "-b", "-c"] ∧
      ∀ vs, vs ≠ [] → (∀ a ∈ vs, startsWith a "-" = false) →
        (build ("-abc" :: vs)).args = ["-a", "-b", "-c"] ∧
          (build ("-abc" :: vs)).values "-c" = some vs ∧
          (build ("-abc" :: vs)).values "-a" = none ∧
          (build ("-abc" :: vs)).values "-b" = none := by
  refine ⟨by decide, ?_⟩
  intro vs hne hnaked
  have h1 : step initState "-abc" =
      { args := ["-a", "-b", "-c"], values := fun _ => none,
        naked_values := [], last_arg := "-c" } := rfl
  have hs : ("-abc" :: vs).foldl step initState =
      { args := ["-a", "-b", "-c"], values := fun _ => none,
        naked_values := vs, last_arg := "-c" } := by
    rw [List.foldl_cons, h1, foldl_step_naked vs _ hnaked]
    rfl
  have hlen : vs.length ≠ 0 := fun hc => hne (List.length_eq_zero.mp hc)
  have hb : build ("-abc" :: vs) =
      { args := ["-a", "-b", "-c"],
        values := insertV (fun _ => none) "-c" vs, naked_values := vs } := by
    unfold build
    rw [hs]
    simp [hlen]
  rw [hb]
  refine ⟨rfl, ?_, ?_, ?_⟩
  · simp [insertV]
  · simp [insertV, show ("-a" : String) ≠ "-c" from by decide]
  · simp [insertV, show ("-b" : String) ≠ "-c" from by decide]

/-- C4 witness at the concrete following run `["v"]`. -/
theorem build_bundled_short_witness :
    (build ["-abc"]).args = ["-a", "-b", "-c"] ∧
      (build ["-abc", "v"]).values "-c" = some ["v"] ∧
      (build ["-abc", "v"]).values "-a" = none :=
  ⟨build_bundled_short.1,
    (build_bundled_short.2 ["v"] (by decide) (by decide)).2.1,
    (build_bundled_short.2 ["v"] (by decide) (by decide)).2.2.1⟩

/-- C7: an element that is exactly `"--"` is processed by the long-option
branch: the accumulator is flushed, the literal token `"--"` is appended
verbatim to `args` and becomes the cursor; concretely, `["--", "a"]`
registers `"--"` as an option that collects the following naked value,
rather than acting as an end-of-options marker. -/
theorem double_dash_is_option :
    (∀ s : TokState,
        step s "--" = { flush s with args := (flush s).args ++ ["--"], last_arg := "--" }) ∧
      (build ["--", "a"]).args = ["--"] ∧
      (build ["--", "a"]).values "--" = some ["a"] := by
  refine ⟨fun s => step_long s "--" (by decide), by decide, by decide⟩

/-- C9: `Arguments::new` iterates over `&arg_str_array[1..]`, so it is
total exactly on non-empty raw-argument vectors, where it tokenizes the
tail; on the empty vector the slice is out of range and the Rust code
panics (modelled as `none`). -/
theorem new_skips_program_name (raw_args : List String) (h : raw_args ≠ []) :
    Arguments.new raw_args = some (build raw_args.tail) ∧
      Arguments.new ([] : List String) = none := by
  match raw_args with
  | [] => exact absurd rfl h
  | p :: rest => exact ⟨rfl, rfl⟩

/-- C9 witness at the concrete raw vector `["prog", "a"]`. -/
theorem new_skips_program_name_witness :
    Arguments.new ["prog", "a"] = some (build ["a"]) ∧
      Arguments.new ([] : List String) = none :=
  new_skips_program_name ["prog", "a"] (by decide)

/-- C10: when the same long-option token occurs twice, each occurrence
followed by a non-empty naked-value run, `args` records both occurrences
in order while the values map retains only the run flushed last for that
token — the final-flush insert overwrites the entry the first run left;
the earlier run is gone from the map whenever it differs from the last. -/
theorem repeated_option_keeps_last_run (o : String) (run1 run2 : List String)
    (ho : startsWith o "--" = true) (h1 : run1 ≠ []) (h2 : run2 ≠ [])
    (hn1 : ∀ a ∈ run1, startsWith a "-" = false)
    (hn2 : ∀ a ∈ run2, startsWith a "-" = false) :
    (build (o :: (run1 ++ o :: run2))).args = [o, o] ∧
      (build (o :: (run1 ++ o :: run2))).values o = some run2 ∧
      (run1 ≠ run2 → (build (o :: (run1 ++ o :: run2))).values o ≠ some run1) := by
  have hs1 : step initState o =
      { args := [o], values := fun _ => none, naked_values := [], last_arg := o } := by
    rw [step_long initState o ho, flush_of_empty initState rfl]
    rfl
  have hs2 : run1.foldl step (step initState o) =
      { args := [o], values := fun _ => none, naked_values := run1, last_arg := o } := by
    rw [hs1, foldl_step_naked run1 _ hn1]
    rfl
  have hs3 : step (run1.foldl step (step initState o)) o =
      { args := [o, o], values := insertV (fun _ => none) o run1,
        naked_values := [], last_arg := o } := by
    rw [hs2, step_long _ o ho,
      flush_of_ne { args := [o], values := fun _ => none, naked_values := run1, last_arg := o } h1]
    rfl
  have hs4 : (o :: (run1 ++ o :: run2)).foldl step initState =
      { args := [o, o], values := insertV (fun _ => none) o run1,
        naked_values := run2, last_arg := o } := by
    rw [List.foldl_cons, List.foldl_append, List.foldl_cons, hs3,
      foldl_step_naked run2 _ hn2]
    rfl
  have hlen : run2.length ≠ 0 := fun hc => h2 (List.length_eq_zero.mp hc)
  have hb : build (o :: (run1 ++ o :: run2)) =
      { args := [o, o],
        values := insertV (insertV (fun _ => none) o run1) o run2,
        naked_values := run2 } := by
    unfold build
    rw [hs4]
    simp [hlen]
  rw [hb]
  refine ⟨rfl, by simp [insertV], ?_⟩
  intro hne
  simp only [insertV, if_pos rfl]
  intro hc
  exact hne (Option.some.injEq run2 run1 ▸ hc).symm

/-- C10 witness at the concrete input `["--foo", "a", "--foo", "b"]`. -/
theorem repeated_option_keeps_last_run_witness :
    (build ["--foo", "a", "--foo", "b"]).args = ["--foo", "--foo"] ∧
      (build ["--foo", "a", "--foo", "b"]).values "--foo" = some ["b"] ∧
      (build ["--foo", "a", "--foo", "b"]).values "--foo" ≠ some ["a"] :=
  ⟨(repeated_option_keeps_last_run "--foo" ["a"] ["b"] (by decide) (by decide)
      (by decide) (by decide) (by decide)).1,
    (repeated_option_keeps_last_run "--foo" ["a"] ["b"] (by decide) (by decide)
      (by decide) (by decide) (by decide)).2.1,
    (repeated_option_keeps_last_run "--foo" ["a"] ["b"] (by decide) (by decide)
      (by decide) (by decide) (by decide)).2.2 (by decide)⟩

/-- C2: calling `handle` twice on the same fresh Fatal error writes the
error line exactly once (on the first call) and both calls return a
failure; calling `handle` twice on the same fresh Warning writes the
warning line both times and both calls return success; and the failure a
Fatal `handle` returns carries `reported = true`, so a layer that receives
it and calls `handle` on it writes nothing further. -/
theorem handle_report_once (e w : CliError)
    (he : e.error_level = ErrorLevel.Error) (hr : e.reported = false)
    (hw : w.error_level = ErrorLevel.Warning) (hwr : w.reported = false) :
    (e.handle.2.1 = [errorLine e.error] ∧
      e.handle.2.2 = Except.error e.handle.1 ∧
      e.handle.1.reported = true ∧
      e.handle.1.handle.2.1 = [] ∧
      e.handle.1.handle.2.2 = Except.error e.handle.1.handle.1) ∧
    (w.handle.2.1 = [warningLine w.error] ∧
      w.handle.2.2 = Except.ok () ∧
      w.handle.1.handle.2.1 = [warningLine w.error] ∧
      w.handle.1.handle.2.2 = Except.ok ()) ∧
    (∀ f, e.handle.2.2 = Except.error f → f.handle.2.1 = [] ∧ f.handle.2.2 = Except.error f) := by
  obtain ⟨msg, code, lvl, rep⟩ := e
  obtain ⟨msgw, codew, lvlw, repw⟩ := w
  simp only [CliError.mk.injEq] at he hr hw hwr
  subst he hr hw hwr
  refine ⟨⟨rfl, rfl, rfl, rfl, rfl⟩, ⟨rfl, rfl, rfl, rfl⟩, ?_⟩
  intro f hf
  have hfe : CliError.mk msg code ErrorLevel.Error true = f := Except.error.inj hf
  subst hfe
  exact ⟨rfl, rfl⟩

/-- C2 witness at concrete fresh Fatal and Warning errors. -/
theorem handle_report_once_witness :
    (CliError.new "boom" 2 ErrorLevel.Error).handle.2.1 = [errorLine "boom"] ∧
      (CliError.new "boom" 2 ErrorLevel.Error).handle.1.handle.2.1 = [] ∧
      (CliError.new "warn" 3 ErrorLevel.Warning).handle.2.1 = [warningLine "warn"] ∧
      (CliError.new "warn" 3 ErrorLevel.Warning).handle.1.handle.2.1 = [warningLine "warn"] ∧
      (CliError.new "warn" 3 ErrorLevel.Warning).handle.2.2 = Except.ok () :=
  ⟨(handle_report_once (CliError.new "boom" 2 ErrorLevel.Error)
      (CliError.new "warn" 3 ErrorLevel.Warning) rfl rfl rfl rfl).1.1,
    (handle_report_once (CliError.new "boom" 2 ErrorLevel.Error)
      (CliError.new "warn" 3 ErrorLevel.Warning) rfl rfl rfl rfl).1.2.2.2.1,
    (handle_report_once (CliError.new "boom" 2 ErrorLevel.Error)
      (CliError.new "warn" 3 ErrorLevel.Warning) rfl rfl rfl rfl).2.1.1,
    (handle_report_once (CliError.new "boom" 2 ErrorLevel.Error)
      (CliError.new "warn" 3 ErrorLevel.Warning) rfl rfl rfl rfl).2.1.2.2.1,
    (handle_report_once (CliError.new "boom" 2 ErrorLevel.Error)
      (CliError.new "warn" 3 ErrorLevel.Warning) rfl rfl rfl rfl).2.1.2.1⟩

/-- C8: `dismiss_by_code c` succeeds iff the error code equals `c`,
`dismiss_by_codes codes` succeeds iff the code is a member of the given
collection, `dismiss` always succeeds, and every failure carries a copy of
the instance (the operations take the instance immutably, so it is
unchanged). -/
theorem dismiss_spec (e : CliError) (c : Int) (codes : List Int) :
    (e.dismiss_by_code c = Except.ok () ↔ e.error_code = c) ∧
      (e.error_code ≠ c → e.dismiss_by_code c = Except.error e) ∧
      (e.dismiss_by_codes codes = Except.ok () ↔ e.error_code ∈ codes) ∧
      (e.error_code ∉ codes → e.dismiss_by_codes codes = Except.error e) ∧
      e.dismiss = Except.ok () := by
  refine ⟨?_, ?_, ?_, ?_, rfl⟩
  · unfold CliError.dismiss_by_code
    split <;> simp_all
  · intro h
    simp [CliError.dismiss_by_code, h]
  · unfold CliError.dismiss_by_codes
    split <;> simp_all [List.contains]
  · intro h
    have hc : codes.contains e.error_code = false := by
      cases hb : codes.contains e.error_code with
      | false => rfl
      | true => exact absurd (by simpa [List.contains] using hb) h
    unfold CliError.dismiss_by_codes
    rw [hc]
    rfl

/-- C8 witness at a concrete error with code 5. -/
theorem dismiss_spec_witness :
    (CliError.new "x" 5 ErrorLevel.Error).dismiss_by_code 5 = Except.ok () ∧
      (CliError.new "x" 5 ErrorLevel.Error).dismiss_by_code 6 =
        Except.error (CliError.new "x" 5 ErrorLevel.Error) ∧
      (CliError.new "x" 5 ErrorLevel.Error).dismiss_by_codes [1, 5] = Except.ok () ∧
      (CliError.new "x" 5 ErrorLevel.Error).dismiss_by_codes [2, 3] =
        Except.error (CliError.new "x" 5 ErrorLevel.Error) ∧
      (CliError.new "x" 5 ErrorLevel.Error).dismiss = Except.ok () :=
  ⟨(dismiss_spec (CliError.new "x" 5 ErrorLevel.Error) 5 []).1.mpr rfl,
    (dismiss_spec (CliError.new "x" 5 ErrorLevel.Error) 6 []).2.1 (by decide),
    (dismiss_spec (CliError.new "x" 5 ErrorLevel.Error) 0 [1, 5]).2.2.1.mpr (by decide),
    (dismiss_spec (CliError.new "x" 5 ErrorLevel.Error) 0 [2, 3]).2.2.2.1 (by decide),
    (dismiss_spec (CliError.new "x" 5 ErrorLevel.Error) 0 []).2.2.2.2⟩

/-- C5: `get_passed_checked` fails with a Fatal (`ErrorLevel.Error`)
`CliError` of code 1 in each of the three failure modes — option token
absent from `args`, option present with no associated value, and value
present but unparsable — with three pairwise distinct messages; when the
first value parses, it returns `Ok` of the very value `get_passed` returns
as `Some`. -/
theorem get_passed_checked_spec {T : Type} (a : Arguments) (parse : String → Option T)
    (key : String) :
    (a.check_arg key = false →
      a.get_passed_checked parse key =
        Except.error (CliError.new (noOptionMsg key) 1 ErrorLevel.Error)) ∧
    (a.check_arg key = true → a.get_single key = none →
      a.get_passed_checked parse key =
        Except.error (CliError.new (noArgumentMsg key) 1 ErrorLevel.Error)) ∧
    (∀ s, a.check_arg key = true → a.get_single key = some s → parse s = none →
      a.get_passed_checked parse key =
        Except.error (CliError.new (cannotParseMsg key) 1 ErrorLevel.Error)) ∧
    (noOptionMsg key ≠ noArgumentMsg key ∧ noOptionMsg key ≠ cannotParseMsg key ∧
      noArgumentMsg key ≠ cannotParseMsg key) ∧
    (∀ s v, a.check_arg key = true → a.get_single key = some s → parse s = some v →
      a.get_passed_checked parse key = Except.ok v ∧ a.get_passed parse key = some v) := by
  have l1 : (noOptionMsg key).length = key.length + 19 := by
    simp only [noOptionMsg, String.length_append,
      show ("No '" : String).length = 4 from rfl,
      show ("' option passed" : String).length = 15 from rfl]
    omega
  have l2 : (cannotParseMsg key).length = key.length + 27 := by
    simp only [cannotParseMsg, String.length_append,
      show ("Cannot parse argument to '" : String).length = 26 from rfl,
      show ("'" : String).length = 1 from rfl]
    omega
  have l3 : (noArgumentMsg key).length = key.length + 24 := by
    simp only [noArgumentMsg, String.length_append,
      show ("No argument passed to '" : String).length = 23 from rfl,
      show ("'" : String).length = 1 from rfl]
    omega
  refine ⟨?_, ?_, ?_, ⟨?_, ?_, ?_⟩, ?_⟩
  · intro h
    simp [Arguments.get_passed_checked, h, CliError.fatal]
  · intro h hs
    simp [Arguments.get_passed_checked, h, hs, CliError.fatal]
  · intro s h hs hp
    simp [Arguments.get_passed_checked, h, hs, hp, CliError.fatal]
  · intro hc
    have := congrArg String.length hc
    omega
  · intro hc
    have := congrArg String.length hc
    omega
  · intro hc
    have := congrArg String.length hc
    omega
  · intro s v h hs hp
    constructor
    · simp [Arguments.get_passed_checked, h, hs, hp]
    · simp [Arguments.get_passed, h, hs, hp]

/-- C5 witness: a tokenizer built from `["--n", "42"]`, queried with the
integer parse, exercises the success mode and the three failure modes at
the keys `"--m"` (absent), `"--n"` with an empty-valued sibling setup
replaced by the absent-value key, and an unparsable value. -/
theorem get_passed_checked_spec_witness :
    (build ["--q", "x"]).get_passed_checked parseInt? "--m" =
      Except.error (CliError.new (noOptionMsg "--m") 1 ErrorLevel.Error) ∧
    (build ["--q", "x"]).get_passed_checked parseInt? "--q" =
      Except.error (CliError.new (cannotParseMsg "--q") 1 ErrorLevel.Error) ∧
    (build ["--e"]).get_passed_checked parseInt? "--e" =
      Except.error (CliError.new (noArgumentMsg "--e") 1 ErrorLevel.Error) ∧
    (build ["--n", "42"]).get_passed_checked parseInt? "--n" = Except.ok 42 ∧
    (build ["--n", "42"]).get_passed parseInt? "--n" = some 42 ∧
    noOptionMsg "--m" ≠ noArgumentMsg "--m" :=
  ⟨(get_passed_checked_spec (build ["--q", "x"]) parseInt? "--m").1 (by decide),
    (get_passed_checked_spec (build ["--q", "x"]) parseInt? "--q").2.2.1 "x"
      (by decide) (by decide) (by decide),
    (get_passed_checked_spec (build ["--e"]) parseInt? "--e").2.1 (by decide) (by decide),
    ((get_passed_checked_spec (build ["--n", "42"]) parseInt? "--n").2.2.2.2 "42" 42
      (by decide) (by decide) (by decide)).1,
    ((get_passed_checked_spec (build ["--n", "42"]) parseInt? "--n").2.2.2.2 "42" 42
      (by decide) (by decide) (by decide)).2,
    (get_passed_checked_spec (build ["--n", "42"]) parseInt? "--m").2.2.2.1.1⟩

end Clilib
